import Mathlib

/-!
Verification of the camera/math core of the `raytracer` mesh viewer
(`src/raytracer.py`).  Vectors and matrices are embedded over the real
numbers; the helper functions `normalize`, `perspective` and `look_at`,
the per-frame camera update from `main`, the OBJ loading logic of
`load_obj`, and the selection logic of `obj_menu` are translated from
the source.
-/

noncomputable section

namespace Raytracer

/-- A 3-component floating point vector (numpy array of length 3). -/
structure Vec3 where
  x : ℝ
  y : ℝ
  z : ℝ

namespace Vec3

@[ext] theorem ext3 (a b : Vec3) (hx : a.x = b.x) (hy : a.y = b.y) (hz : a.z = b.z) :
    a = b := by
  cases a; cases b; simp_all

def add (a b : Vec3) : Vec3 := ⟨a.x + b.x, a.y + b.y, a.z + b.z⟩

def sub (a b : Vec3) : Vec3 := ⟨a.x - b.x, a.y - b.y, a.z - b.z⟩

def smul (c : Real) (a : Vec3) : Vec3 := ⟨c * a.x, c * a.y, c * a.z⟩

/-- Componentwise division by a scalar (`v / n` in numpy). -/
def divs (a : Vec3) (n : Real) : Vec3 := ⟨a.x / n, a.y / n, a.z / n⟩

def neg (a : Vec3) : Vec3 := ⟨-a.x, -a.y, -a.z⟩

/-- Dot product `np.dot` on 3-vectors. -/
def dot (a b : Vec3) : Real := a.x * b.x + a.y * b.y + a.z * b.z

/-- Cross product `np.cross` on 3-vectors. -/
def cross (a b : Vec3) : Vec3 :=
  ⟨a.y * b.z - a.z * b.y, a.z * b.x - a.x * b.z, a.x * b.y - a.y * b.x⟩

/-- Euclidean length of a 3-vector, `np.linalg.norm`. -/
def norm3 (a : Vec3) : Real := Real.sqrt (a.x * a.x + a.y * a.y + a.z * a.z)

theorem dot_self_nonneg (a : Vec3) : 0 ≤ a.x * a.x + a.y * a.y + a.z * a.z := by
  have hx := mul_self_nonneg a.x
  have hy := mul_self_nonneg a.y
  have hz := mul_self_nonneg a.z
  linarith

theorem norm3_nonneg (a : Vec3) : 0 ≤ a.norm3 := Real.sqrt_nonneg _

theorem sq_norm3 (a : Vec3) : a.norm3 ^ 2 = a.x * a.x + a.y * a.y + a.z * a.z :=
  Real.sq_sqrt a.dot_self_nonneg

end Vec3

/--
The function `normalize(v)` from `src/raytracer.py`:
```
n = np.linalg.norm(v)
return v / n if n != 0 else v
```
-/
def normalize (v : Vec3) : Vec3 :=
  let n := v.norm3
  if n ≠ 0 then v.divs n else v

theorem normalize_of_norm_ne_zero (v : Vec3) (h : v.norm3 ≠ 0) :
    normalize v = v.divs v.norm3 := by
  simp [normalize, h]

theorem normalize_of_norm_eq_zero (v : Vec3) (h : v.norm3 = 0) :
    normalize v = v := by
  simp [normalize, h]

theorem norm3_normalize (v : Vec3) (h : v.norm3 ≠ 0) :
    (normalize v).norm3 = 1 := by
  rw [normalize_of_norm_ne_zero v h]
  have hsq : v.norm3 ^ 2 = v.x * v.x + v.y * v.y + v.z * v.z := v.sq_norm3
  have hpos : 0 < v.norm3 := lt_of_le_of_ne v.norm3_nonneg (Ne.symm h)
  set n := v.norm3 with hn
  show Real.sqrt (v.x / n * (v.x / n) + v.y / n * (v.y / n) + v.z / n * (v.z / n)) = 1
  have key : v.x / n * (v.x / n) + v.y / n * (v.y / n) + v.z / n * (v.z / n) = 1 := by
    field_simp
    linarith [hsq]
  rw [key, Real.sqrt_one]

/-- C1: `normalize(v)` returns `v` scaled to unit length when `‖v‖ ≠ 0`
(the result has length 1 for any nonzero input) and returns `v` unchanged
when `‖v‖ = 0`, with no division performed in the zero case. -/
theorem C1_normalize_spec (v : Vec3) :
    (v.norm3 ≠ 0 → (normalize v).norm3 = 1) ∧
    (v.norm3 = 0 → normalize v = v) :=
  ⟨norm3_normalize v, normalize_of_norm_eq_zero v⟩

theorem norm3_345 : (Vec3.mk 3 4 0).norm3 = 5 := by
  unfold Vec3.norm3
  rw [show (3:ℝ) * 3 + 4 * 4 + 0 * 0 = 5 ^ 2 by norm_num]
  exact Real.sqrt_sq (by norm_num)

/-- Witness for C1 at the concrete vector `(3, 4, 0)` (length 5) and at the
zero vector. -/
theorem C1_witness :
    (normalize ⟨3, 4, 0⟩).norm3 = 1 ∧ normalize ⟨0, 0, 0⟩ = ⟨0, 0, 0⟩ := by
  constructor
  · exact (C1_normalize_spec ⟨3, 4, 0⟩).1 (by rw [norm3_345]; norm_num)
  · exact (C1_normalize_spec ⟨0, 0, 0⟩).2 (by unfold Vec3.norm3; simp)

theorem normalize_unit (v : Vec3) (h : v.norm3 = 1) : normalize v = v := by
  rw [normalize_of_norm_ne_zero v (by rw [h]; norm_num), h]
  cases v
  simp [Vec3.divs]

/-- A homogeneous 4-component vector. -/
structure Vec4 where
  x : ℝ
  y : ℝ
  z : ℝ
  w : ℝ

/-- A 4×4 matrix in row-major layout, entry `mIJ` at row `I`, column `J`. -/
structure Mat4 where
  m00 : ℝ
  m01 : ℝ
  m02 : ℝ
  m03 : ℝ
  m10 : ℝ
  m11 : ℝ
  m12 : ℝ
  m13 : ℝ
  m20 : ℝ
  m21 : ℝ
  m22 : ℝ
  m23 : ℝ
  m30 : ℝ
  m31 : ℝ
  m32 : ℝ
  m33 : ℝ

namespace Mat4

/-- Identity matrix `np.eye(4)`. -/
def eye4 : Mat4 := ⟨1, 0, 0, 0, 0, 1, 0, 0, 0, 0, 1, 0, 0, 0, 0, 1⟩

/-- Matrix–vector product `M @ v` on homogeneous coordinates. -/
def mulVec (M : Mat4) (v : Vec4) : Vec4 :=
  ⟨M.m00 * v.x + M.m01 * v.y + M.m02 * v.z + M.m03 * v.w,
   M.m10 * v.x + M.m11 * v.y + M.m12 * v.z + M.m13 * v.w,
   M.m20 * v.x + M.m21 * v.y + M.m22 * v.z + M.m23 * v.w,
   M.m30 * v.x + M.m31 * v.y + M.m32 * v.z + M.m33 * v.w⟩

/-- Matrix–matrix product `A @ B`. -/
def mul (A B : Mat4) : Mat4 :=
  ⟨A.m00 * B.m00 + A.m01 * B.m10 + A.m02 * B.m20 + A.m03 * B.m30,
   A.m00 * B.m01 + A.m01 * B.m11 + A.m02 * B.m21 + A.m03 * B.m31,
   A.m00 * B.m02 + A.m01 * B.m12 + A.m02 * B.m22 + A.m03 * B.m32,
   A.m00 * B.m03 + A.m01 * B.m13 + A.m02 * B.m23 + A.m03 * B.m33,
   A.m10 * B.m00 + A.m11 * B.m10 + A.m12 * B.m20 + A.m13 * B.m30,
   A.m10 * B.m01 + A.m11 * B.m11 + A.m12 * B.m21 + A.m13 * B.m31,
   A.m10 * B.m02 + A.m11 * B.m12 + A.m12 * B.m22 + A.m13 * B.m32,
   A.m10 * B.m03 + A.m11 * B.m13 + A.m12 * B.m23 + A.m13 * B.m33,
   A.m20 * B.m00 + A.m21 * B.m10 + A.m22 * B.m20 + A.m23 * B.m30,
   A.m20 * B.m01 + A.m21 * B.m11 + A.m22 * B.m21 + A.m23 * B.m31,
   A.m20 * B.m02 + A.m21 * B.m12 + A.m22 * B.m22 + A.m23 * B.m32,
   A.m20 * B.m03 + A.m21 * B.m13 + A.m22 * B.m23 + A.m23 * B.m33,
   A.m30 * B.m00 + A.m31 * B.m10 + A.m32 * B.m20 + A.m33 * B.m30,
   A.m30 * B.m01 + A.m31 * B.m11 + A.m32 * B.m21 + A.m33 * B.m31,
   A.m30 * B.m02 + A.m31 * B.m12 + A.m32 * B.m22 + A.m33 * B.m32,
   A.m30 * B.m03 + A.m31 * B.m13 + A.m32 * B.m23 + A.m33 * B.m33⟩

theorem mul_mulVec (A B : Mat4) (v : Vec4) :
    (A.mul B).mulVec v = A.mulVec (B.mulVec v) := by
  cases A; cases B; cases v
  simp only [mul, mulVec, Vec4.mk.injEq]
  refine ⟨?_, ?_, ?_, ?_⟩ <;> ring

end Mat4

/--
The function `perspective(fovy, aspect, near, far)` from `src/raytracer.py`:
```
f = 1.0 / np.tan(fovy / 2)
return np.array([[f / aspect, 0, 0, 0],
                 [0, f, 0, 0],
                 [0, 0, (far + near) / (near - far), (2 * far * near) / (near - far)],
                 [0, 0, -1, 0]])
```
-/
def perspective (fovy aspect near far : ℝ) : Mat4 :=
  let f := 1 / Real.tan (fovy / 2)
  ⟨f / aspect, 0, 0, 0,
   0, f, 0, 0,
   0, 0, (far + near) / (near - far), (2 * far * near) / (near - far),
   0, 0, -1, 0⟩

/--
The function `look_at(eye, target, up)` from `src/raytracer.py`:
```
f = normalize(target - eye); s = normalize(np.cross(f, up)); u = np.cross(s, f)
mat = np.eye(4); mat[0,:3] = s; mat[1,:3] = u; mat[2,:3] = -f
mat[0,3] = -np.dot(s, eye); mat[1,3] = -np.dot(u, eye); mat[2,3] = np.dot(f, eye)
```
-/
def look_at (eye target up : Vec3) : Mat4 :=
  let f := normalize (target.sub eye)
  let s := normalize (f.cross up)
  let u := s.cross f
  ⟨s.x, s.y, s.z, -(s.dot eye),
   u.x, u.y, u.z, -(u.dot eye),
   -f.x, -f.y, -f.z, f.dot eye,
   0, 0, 0, 1⟩

theorem perspective_m11_at_60deg :
    (perspective (Real.pi / 3) (16 / 9) (1 / 10) 100).m11 = Real.sqrt 3 := by
  show 1 / Real.tan (Real.pi / 3 / 2) = Real.sqrt 3
  rw [show Real.pi / 3 / 2 = Real.pi / 6 by ring, Real.tan_pi_div_six, one_div_one_div]

theorem sqrt_three_bounds : 173 / 100 < Real.sqrt 3 ∧ Real.sqrt 3 < 174 / 100 := by
  constructor
  · rw [show (173 : ℝ) / 100 = Real.sqrt ((173 / 100) ^ 2) from
      (Real.sqrt_sq (by norm_num)).symm]
    exact Real.sqrt_lt_sqrt (by norm_num) (by norm_num)
  · rw [Real.sqrt_lt' (by norm_num)]
    norm_num

/-- C2: for admissible parameters, `perspective(fovy, aspect, near, far)` is
the matrix with `f = 1/tan(fovy/2)`, entry `[0][0] = f/aspect`, `[1][1] = f`,
`[2][2] = (far+near)/(near-far)`, `[2][3] = 2·far·near/(near-far)`, bottom row
`[0,0,-1,0]` and zeros elsewhere; and `perspective(60°, 16/9, 0.1, 100)` has
`[1][1] = 1/tan(30°) ≈ 1.732` and `[0][0] = [1][1]/aspect ≈ 0.974`. -/
theorem C2_perspective_spec (fovy aspect near far : ℝ)
    (h1 : 0 < fovy) (h2 : fovy < Real.pi) (h3 : 0 < aspect)
    (h4 : 0 < near) (h5 : near < far) :
    perspective fovy aspect near far =
      ⟨(1 / Real.tan (fovy / 2)) / aspect, 0, 0, 0,
       0, 1 / Real.tan (fovy / 2), 0, 0,
       0, 0, (far + near) / (near - far), (2 * far * near) / (near - far),
       0, 0, -1, 0⟩ ∧
    (perspective (Real.pi / 3) (16 / 9) (1 / 10) 100).m11 =
      1 / Real.tan (Real.pi / 6) ∧
    173 / 100 < (perspective (Real.pi / 3) (16 / 9) (1 / 10) 100).m11 ∧
    (perspective (Real.pi / 3) (16 / 9) (1 / 10) 100).m11 < 174 / 100 ∧
    (perspective (Real.pi / 3) (16 / 9) (1 / 10) 100).m00 =
      (1 / Real.tan (Real.pi / 6)) / (16 / 9) ∧
    97 / 100 < (perspective (Real.pi / 3) (16 / 9) (1 / 10) 100).m00 ∧
    (perspective (Real.pi / 3) (16 / 9) (1 / 10) 100).m00 < 98 / 100 := by
  obtain ⟨hlo, hhi⟩ := sqrt_three_bounds
  have hm11 := perspective_m11_at_60deg
  have hm00 : (perspective (Real.pi / 3) (16 / 9) (1 / 10) 100).m00 =
      Real.sqrt 3 / (16 / 9) := by
    show (1 / Real.tan (Real.pi / 3 / 2)) / (16 / 9) = Real.sqrt 3 / (16 / 9)
    rw [show Real.pi / 3 / 2 = Real.pi / 6 by ring, Real.tan_pi_div_six,
      one_div_one_div]
  refine ⟨rfl, ?_, ?_, ?_, ?_, ?_, ?_⟩
  · rw [hm11, Real.tan_pi_div_six, one_div_one_div]
  · rw [hm11]; exact hlo
  · rw [hm11]; exact hhi
  · rw [hm00, Real.tan_pi_div_six, one_div_one_div]
  · rw [hm00, lt_div_iff₀ (by norm_num : (0:ℝ) < 16 / 9)]
    linarith
  · rw [hm00, div_lt_iff₀ (by norm_num : (0:ℝ) < 16 / 9)]
    linarith

/-- Witness for C2 at `fovy = 60°`, `aspect = 16/9`, `near = 0.1`, `far = 100`:
the `[1][1]` entry lies in `(1.73, 1.74)`. -/
theorem C2_witness :
    173 / 100 < (perspective (Real.pi / 3) (16 / 9) (1 / 10) 100).m11 :=
  (C2_perspective_spec (Real.pi / 3) (16 / 9) (1 / 10) 100
    (by positivity) (by linarith [Real.pi_pos]) (by norm_num) (by norm_num)
    (by norm_num)).2.2.1

theorem sub_000 : Vec3.sub ⟨0, 0, -1⟩ ⟨0, 0, 0⟩ = Vec3.mk 0 0 (-1) := by
  simp [Vec3.sub]

theorem normalize_back : normalize ⟨0, 0, -1⟩ = Vec3.mk 0 0 (-1) := by
  refine normalize_unit _ ?_
  show Real.sqrt (0 * 0 + 0 * 0 + -1 * -1) = 1
  rw [show (0:ℝ) * 0 + 0 * 0 + -1 * -1 = 1 by norm_num, Real.sqrt_one]

theorem cross_back_up : Vec3.cross ⟨0, 0, -1⟩ ⟨0, 1, 0⟩ = Vec3.mk 1 0 0 := by
  simp [Vec3.cross]

theorem normalize_e1 : normalize ⟨1, 0, 0⟩ = Vec3.mk 1 0 0 := by
  refine normalize_unit _ ?_
  show Real.sqrt (1 * 1 + 0 * 0 + 0 * 0) = 1
  rw [show (1:ℝ) * 1 + 0 * 0 + 0 * 0 = 1 by norm_num, Real.sqrt_one]

theorem look_at_origin_eq_eye4 :
    look_at ⟨0, 0, 0⟩ ⟨0, 0, -1⟩ ⟨0, 1, 0⟩ = Mat4.eye4 := by
  show Mat4.mk _ _ _ _ _ _ _ _ _ _ _ _ _ _ _ _ = Mat4.eye4
  rw [sub_000, normalize_back, cross_back_up, normalize_e1]
  simp only [Vec3.cross, Vec3.dot, Mat4.eye4, Mat4.mk.injEq]
  norm_num

/-- C3: `look_at(eye, target, up)` returns the matrix built from
`f = normalize(target - eye)`, `s = normalize(cross(f, up))`, `u = cross(s, f)`
with rows `[s, -dot(s,eye)]`, `[u, -dot(u,eye)]`, `[-f, dot(f,eye)]`,
`[0,0,0,1]`; and at `eye = (0,0,0)`, `target = (0,0,-1)`, `up = (0,1,0)` it
yields the identity matrix (identity rotation, zero translation). -/
theorem C3_look_at_spec (eye target up : Vec3)
    (hne : eye ≠ target)
    (hcross : (normalize (target.sub eye)).cross up ≠ Vec3.mk 0 0 0) :
    (look_at eye target up =
      ⟨(normalize ((normalize (target.sub eye)).cross up)).x,
       (normalize ((normalize (target.sub eye)).cross up)).y,
       (normalize ((normalize (target.sub eye)).cross up)).z,
       -((normalize ((normalize (target.sub eye)).cross up)).dot eye),
       ((normalize ((normalize (target.sub eye)).cross up)).cross
         (normalize (target.sub eye))).x,
       ((normalize ((normalize (target.sub eye)).cross up)).cross
         (normalize (target.sub eye))).y,
       ((normalize ((normalize (target.sub eye)).cross up)).cross
         (normalize (target.sub eye))).z,
       -(((normalize ((normalize (target.sub eye)).cross up)).cross
         (normalize (target.sub eye))).dot eye),
       -(normalize (target.sub eye)).x,
       -(normalize (target.sub eye)).y,
       -(normalize (target.sub eye)).z,
       (normalize (target.sub eye)).dot eye,
       0, 0, 0, 1⟩) ∧
    look_at ⟨0, 0, 0⟩ ⟨0, 0, -1⟩ ⟨0, 1, 0⟩ = Mat4.eye4 :=
  ⟨rfl, look_at_origin_eq_eye4⟩

theorem neq_origin_back : Vec3.mk 0 0 0 ≠ Vec3.mk 0 0 (-1) := by
  intro h
  have := congrArg Vec3.z h
  norm_num at this

theorem cross_ne_zero_back :
    (normalize (Vec3.sub ⟨0, 0, -1⟩ ⟨0, 0, 0⟩)).cross ⟨0, 1, 0⟩ ≠
      Vec3.mk 0 0 0 := by
  rw [sub_000, normalize_back, cross_back_up]
  intro h
  have := congrArg Vec3.x h
  norm_num at this

/-- Witness for C3 at `eye = (0,0,0)`, `target = (0,0,-1)`, `up = (0,1,0)`. -/
theorem C3_witness :
    look_at ⟨0, 0, 0⟩ ⟨0, 0, -1⟩ ⟨0, 1, 0⟩ = Mat4.eye4 :=
  (C3_look_at_spec ⟨0, 0, 0⟩ ⟨0, 0, -1⟩ ⟨0, 1, 0⟩ neq_origin_back
    cross_ne_zero_back).2

/-- Camera state of `main`: `cam_pos`, `yaw`, `pitch`. -/
structure CameraState where
  pos : Vec3
  yaw : ℝ
  pitch : ℝ

/-- Constant `MOVE_SPEED = 0.1` in `main`. -/
def MOVE_SPEED : ℝ := 1 / 10

/-- Constant `LOOK_SPEED = 0.003` in `main`. -/
def LOOK_SPEED : ℝ := 3 / 1000

/-- Scalar clip `np.clip(x, lo, hi)`: `lo` if `x < lo`, `hi` if `x > hi`,
otherwise `x`. -/
def npClip (x lo hi : ℝ) : ℝ := min (max x lo) hi

/-- Initial camera of `main`: `cam_pos = [0, 1, 4]`, `yaw = π`, `pitch = 0`. -/
def camInit : CameraState := ⟨⟨0, 1, 4⟩, Real.pi, 0⟩

/--
The `MOUSEMOTION` branch of the event loop in `main`:
```
yaw -= mx * LOOK_SPEED
pitch += my * LOOK_SPEED
pitch = np.clip(pitch, -np.pi/2, np.pi/2)
```
-/
def applyLook (st : CameraState) (mx my : ℝ) : CameraState :=
  ⟨st.pos, st.yaw - mx * LOOK_SPEED,
   npClip (st.pitch + my * LOOK_SPEED) (-(Real.pi / 2)) (Real.pi / 2)⟩

/-- A sequence of mouse-motion look updates applied in order. -/
def applyLooks (st : CameraState) (events : List (ℝ × ℝ)) : CameraState :=
  events.foldl (fun t e => applyLook t e.1 e.2) st

/-- C4 counterexample: one look update with mouse delta `(0, 1000)` from
the initial camera drives the pitch to exactly `π/2`: the pitch reaches the
bound of the interval, so it does not stay strictly inside `(-π/2, π/2)`. -/
theorem C4_counterexample :
    (applyLook camInit 0 1000).pitch = Real.pi / 2 ∧
    ¬ (applyLook camInit 0 1000).pitch < Real.pi / 2 := by
  have hpi : Real.pi < 6 := lt_trans Real.pi_lt_d2 (by norm_num)
  have hpos := Real.pi_pos
  have h : (applyLook camInit 0 1000).pitch = Real.pi / 2 := by
    show npClip (0 + 1000 * LOOK_SPEED) (-(Real.pi / 2)) (Real.pi / 2) = Real.pi / 2
    unfold npClip LOOK_SPEED
    rw [show (0:ℝ) + 1000 * (3 / 1000) = 3 by norm_num]
    rw [max_eq_left (by linarith), min_eq_right (by linarith)]
  exact ⟨h, by rw [h]; exact lt_irrefl _⟩

theorem applyLook_pitch_mem (st : CameraState) (mx my : ℝ) :
    -(Real.pi / 2) ≤ (applyLook st mx my).pitch ∧
    (applyLook st mx my).pitch ≤ Real.pi / 2 := by
  have hpos := Real.pi_pos
  constructor
  · exact le_min (le_max_right _ _) (by linarith)
  · exact min_le_right _ _

theorem applyLooks_pitch_mem (events : List (ℝ × ℝ)) (st : CameraState)
    (hst : -(Real.pi / 2) ≤ st.pitch ∧ st.pitch ≤ Real.pi / 2) :
    -(Real.pi / 2) ≤ (applyLooks st events).pitch ∧
    (applyLooks st events).pitch ≤ Real.pi / 2 := by
  induction events generalizing st with
  | nil => exact hst
  | cons e es ih => exact ih (applyLook st e.1 e.2) (applyLook_pitch_mem st e.1 e.2)

/-- C4 amended: for any sequence of look updates applied to the initial
camera, the pitch stays within the closed interval `[-π/2, π/2]` after each
call; it can reach the bounds exactly (the clip is inclusive), so the open
interval of the original claim does not hold. -/
theorem C4_pitch_clamped (events : List (ℝ × ℝ)) :
    -(Real.pi / 2) ≤ (applyLooks camInit events).pitch ∧
    (applyLooks camInit events).pitch ≤ Real.pi / 2 :=
  applyLooks_pitch_mem events camInit
    ⟨by simp [camInit]; positivity, by simp [camInit]; positivity⟩

/-- C5: one look update with deltas `(mx, my)` maps yaw to
`yaw - mx·LOOK_SPEED`, pitch to `clamp(pitch + my·LOOK_SPEED, -π/2, π/2)`,
and leaves the camera position unchanged. -/
theorem C5_applyLook_spec (st : CameraState) (mx my : ℝ) :
    (applyLook st mx my).yaw = st.yaw - mx * LOOK_SPEED ∧
    (applyLook st mx my).pitch =
      min (max (st.pitch + my * LOOK_SPEED) (-(Real.pi / 2))) (Real.pi / 2) ∧
    (applyLook st mx my).pos = st.pos :=
  ⟨rfl, rfl, rfl⟩

/-- The set of held movement keys read by `main` each frame. -/
structure Keys where
  w : Bool
  s : Bool
  a : Bool
  d : Bool
  q : Bool
  e : Bool

/-- Movement forward vector of `main`: `[sin(yaw), 0, cos(yaw)]`. -/
def forwardVec (yaw : ℝ) : Vec3 := ⟨Real.sin yaw, 0, Real.cos yaw⟩

/-- Movement right vector of `main`: `normalize(np.cross(forward, [0,1,0]))`. -/
def rightVec (yaw : ℝ) : Vec3 := normalize ((forwardVec yaw).cross ⟨0, 1, 0⟩)

/--
The movement block of `main`:
```
if keys[K_w]: cam_pos += forward * MOVE_SPEED
if keys[K_s]: cam_pos -= forward * MOVE_SPEED
if keys[K_a]: cam_pos -= right * MOVE_SPEED
if keys[K_d]: cam_pos += right * MOVE_SPEED
if keys[K_q]: cam_pos[1] += MOVE_SPEED
if keys[K_e]: cam_pos[1] -= MOVE_SPEED
```
-/
def applyMove (st : CameraState) (k : Keys) : CameraState :=
  let forward := forwardVec st.yaw
  let right := rightVec st.yaw
  let p1 := if k.w then st.pos.add (Vec3.smul MOVE_SPEED forward) else st.pos
  let p2 := if k.s then p1.sub (Vec3.smul MOVE_SPEED forward) else p1
  let p3 := if k.a then p2.sub (Vec3.smul MOVE_SPEED right) else p2
  let p4 := if k.d then p3.add (Vec3.smul MOVE_SPEED right) else p3
  let p5 := if k.q then Vec3.mk p4.x (p4.y + MOVE_SPEED) p4.z else p4
  let p6 := if k.e then Vec3.mk p5.x (p5.y - MOVE_SPEED) p5.z else p5
  ⟨p6, st.yaw, st.pitch⟩

/-- Only the forward key `W` held. -/
def onlyW : Keys := ⟨true, false, false, false, false, false⟩

theorem applyMove_onlyW (st : CameraState) :
    applyMove st onlyW =
      ⟨⟨st.pos.x + MOVE_SPEED * Real.sin st.yaw, st.pos.y + MOVE_SPEED * 0,
        st.pos.z + MOVE_SPEED * Real.cos st.yaw⟩, st.yaw, st.pitch⟩ := by
  simp [applyMove, onlyW, Vec3.add, Vec3.smul, forwardVec]

/-- C6: the movement forward vector comes from yaw alone as
`(sin yaw, 0, cos yaw)`; a move update holding only the forward key leaves
the y-component of the position unchanged for every camera state (any pitch),
and with `yaw = 0` it strictly increases the z-component. -/
theorem C6_forward_move_spec (st : CameraState) :
    forwardVec st.yaw = ⟨Real.sin st.yaw, 0, Real.cos st.yaw⟩ ∧
    (applyMove st onlyW).pos.y = st.pos.y ∧
    (st.yaw = 0 → st.pos.z < (applyMove st onlyW).pos.z) := by
  refine ⟨rfl, ?_, ?_⟩
  · rw [applyMove_onlyW]
    simp
  · intro h
    rw [applyMove_onlyW]
    simp only [h, Real.cos_zero]
    show st.pos.z < st.pos.z + MOVE_SPEED * 1
    unfold MOVE_SPEED
    linarith

/-- Witness for C6 at the camera state `pos = (0,0,0)`, `yaw = 0`,
`pitch = 1` (a nonzero pitch): forward movement keeps `y` and increases `z`. -/
theorem C6_witness :
    (applyMove ⟨⟨0, 0, 0⟩, 0, 1⟩ onlyW).pos.y =
      (CameraState.mk ⟨0, 0, 0⟩ 0 1).pos.y ∧
    (CameraState.mk ⟨0, 0, 0⟩ 0 1).pos.z <
      (applyMove ⟨⟨0, 0, 0⟩, 0, 1⟩ onlyW).pos.z :=
  ⟨(C6_forward_move_spec ⟨⟨0, 0, 0⟩, 0, 1⟩).2.1,
   (C6_forward_move_spec ⟨⟨0, 0, 0⟩, 0, 1⟩).2.2 rfl⟩

theorem norm3_forwardVec (yaw : ℝ) : (forwardVec yaw).norm3 = 1 := by
  show Real.sqrt (Real.sin yaw * Real.sin yaw + 0 * 0 +
    Real.cos yaw * Real.cos yaw) = 1
  rw [show Real.sin yaw * Real.sin yaw + 0 * 0 + Real.cos yaw * Real.cos yaw =
    Real.sin yaw ^ 2 + Real.cos yaw ^ 2 by ring, Real.sin_sq_add_cos_sq,
    Real.sqrt_one]

theorem cross_forwardVec_up (yaw : ℝ) :
    (forwardVec yaw).cross ⟨0, 1, 0⟩ =
      Vec3.mk (-Real.cos yaw) 0 (Real.sin yaw) := by
  simp [forwardVec, Vec3.cross]

theorem norm3_cross_forwardVec_up (yaw : ℝ) :
    ((forwardVec yaw).cross ⟨0, 1, 0⟩).norm3 = 1 := by
  rw [cross_forwardVec_up]
  show Real.sqrt (-Real.cos yaw * -Real.cos yaw + 0 * 0 +
    Real.sin yaw * Real.sin yaw) = 1
  rw [show -Real.cos yaw * -Real.cos yaw + 0 * 0 + Real.sin yaw * Real.sin yaw =
    Real.sin yaw ^ 2 + Real.cos yaw ^ 2 by ring, Real.sin_sq_add_cos_sq,
    Real.sqrt_one]

/-- C9: the movement forward vector has exact unit length and zero
y-component for every yaw; its cross product with the world up `(0,1,0)` has
unit length, is never the zero vector, and `normalize` takes its nonzero
branch on it, so the right vector is always a unit-length horizontal
vector. -/
theorem C9_rightVec_safe (yaw : ℝ) :
    (forwardVec yaw).norm3 = 1 ∧
    (forwardVec yaw).y = 0 ∧
    ((forwardVec yaw).cross ⟨0, 1, 0⟩).norm3 = 1 ∧
    (forwardVec yaw).cross ⟨0, 1, 0⟩ ≠ Vec3.mk 0 0 0 ∧
    rightVec yaw = (forwardVec yaw).cross ⟨0, 1, 0⟩ ∧
    (rightVec yaw).norm3 = 1 ∧
    (rightVec yaw).y = 0 := by
  have hcn := norm3_cross_forwardVec_up yaw
  have hright : rightVec yaw = (forwardVec yaw).cross ⟨0, 1, 0⟩ :=
    normalize_unit _ hcn
  refine ⟨norm3_forwardVec yaw, rfl, hcn, ?_, hright, ?_, ?_⟩
  · intro h
    rw [h] at hcn
    rw [show Vec3.norm3 ⟨0, 0, 0⟩ = 0 by
      show Real.sqrt (0 * 0 + 0 * 0 + 0 * 0) = 0
      simp] at hcn
    norm_num at hcn
  · rw [hright]; exact hcn
  · rw [hright, cross_forwardVec_up]

/-- Look target of `main`:
`cam_pos + [sin(yaw)·cos(pitch), sin(pitch), cos(yaw)·cos(pitch)]`. -/
def lookTarget (st : CameraState) : Vec3 :=
  st.pos.add ⟨Real.sin st.yaw * Real.cos st.pitch, Real.sin st.pitch,
    Real.cos st.yaw * Real.cos st.pitch⟩

/-- The per-frame view matrix of `main`:
`look_at(cam_pos, target, [0,1,0])`. -/
def frameView (st : CameraState) : Mat4 :=
  look_at st.pos (lookTarget st) ⟨0, 1, 0⟩

/-- The per-frame combined matrix of `main`: `MVP = proj @ view`. -/
def frameMVP (st : CameraState) (fovy aspect near far : ℝ) : Mat4 :=
  (perspective fovy aspect near far).mul (frameView st)

/-- The camera position in homogeneous coordinates. -/
def eyePoint (st : CameraState) : Vec4 := ⟨st.pos.x, st.pos.y, st.pos.z, 1⟩

theorem look_at_mulVec_eye (eye target up : Vec3) :
    (look_at eye target up).mulVec ⟨eye.x, eye.y, eye.z, 1⟩ =
      Vec4.mk 0 0 0 1 := by
  simp only [look_at, Mat4.mulVec, Vec3.dot, Vec4.mk.injEq]
  refine ⟨by ring, by ring, by ring, by ring⟩

/-- C7: for every camera state and admissible projection parameters, the
view matrix maps the camera's own eye position to the view-space origin, and
`MVP = proj @ view` maps it to the clip-space point
`(0, 0, 2·far·near/(near-far), 0)`, whose depth satisfies `z ≤ -w`: the eye
is behind or at the near-plane boundary, never strictly in front of its own
view frustum. -/
theorem C7_eye_behind_near_plane (st : CameraState) (fovy aspect near far : ℝ)
    (h4 : 0 < near) (h5 : near < far) :
    (frameView st).mulVec (eyePoint st) = Vec4.mk 0 0 0 1 ∧
    (frameMVP st fovy aspect near far).mulVec (eyePoint st) =
      Vec4.mk 0 0 (2 * far * near / (near - far)) 0 ∧
    ((frameMVP st fovy aspect near far).mulVec (eyePoint st)).z ≤
      -(((frameMVP st fovy aspect near far).mulVec (eyePoint st)).w) := by
  have hview : (frameView st).mulVec (eyePoint st) = Vec4.mk 0 0 0 1 :=
    look_at_mulVec_eye st.pos (lookTarget st) ⟨0, 1, 0⟩
  have hmvp : (frameMVP st fovy aspect near far).mulVec (eyePoint st) =
      Vec4.mk 0 0 (2 * far * near / (near - far)) 0 := by
    unfold frameMVP
    rw [Mat4.mul_mulVec, hview]
    simp only [perspective, Mat4.mulVec, Vec4.mk.injEq]
    refine ⟨by ring, by ring, by ring, by ring⟩
  refine ⟨hview, hmvp, ?_⟩
  rw [hmvp]
  show 2 * far * near / (near - far) ≤ -(0 : ℝ)
  rw [neg_zero]
  have hnum : 0 < 2 * far * near := by
    have hfar : 0 < far := lt_trans h4 h5
    nlinarith
  have hden : near - far < 0 := by linarith
  exact le_of_lt (div_neg_of_pos_of_neg hnum hden)

/-- Witness for C7 at the initial camera and the frame constants
`fovy = 60°`, `aspect = 16/9`, `near = 0.1`, `far = 100`. -/
theorem C7_witness :
    (frameView camInit).mulVec (eyePoint camInit) = Vec4.mk 0 0 0 1 ∧
    ((frameMVP camInit (Real.pi / 3) (16 / 9) (1 / 10) 100).mulVec
      (eyePoint camInit)).z ≤
    -(((frameMVP camInit (Real.pi / 3) (16 / 9) (1 / 10) 100).mulVec
      (eyePoint camInit)).w) :=
  ⟨(C7_eye_behind_near_plane camInit (Real.pi / 3) (16 / 9) (1 / 10) 100
      (by norm_num) (by norm_num)).1,
   (C7_eye_behind_near_plane camInit (Real.pi / 3) (16 / 9) (1 / 10) 100
      (by norm_num) (by norm_num)).2.2⟩

/-- Errors raised while loading a mesh: `FileNotFoundError` raised by
`load_obj` itself, or an error propagated from the external pywavefront
parser on malformed content. -/
inductive LoadError where
  | notFound (path : String)
  | parseError (msg : String)

/-- A loaded mesh: vertex positions and flattened triangle indices. -/
structure Mesh where
  vertices : List Vec3
  faces : List Nat

/--
The function `load_obj(obj_path)` from `src/raytracer.py`, parameterised by the file
system (`pathExists`, standing for `os.path.exists`) and by the external
pywavefront parser (`parse`, which may fail on malformed content):
```
if not os.path.exists(obj_path):
    raise FileNotFoundError("OBJ file not found: " + obj_path)
scene = Wavefront(obj_path, collect_faces=True, parse=True)
```
-/
def load_obj (pathExists : String → Bool)
    (parse : String → Except String Mesh) (obj_path : String) :
    Except LoadError Mesh :=
  if pathExists obj_path then
    match parse obj_path with
    | Except.ok m => Except.ok m
    | Except.error e => Except.error (LoadError.parseError e)
  else
    Except.error (LoadError.notFound obj_path)

/-- Outcome of the startup sequence of `main` after the menu returns a path:
either the viewer proceeds to ModernGL setup and the render loop with the
loaded mesh, or the error is printed and `main` returns before any GPU
call. -/
inductive StartupOutcome where
  | proceed (mesh : Mesh)
  | exitGracefully (errMsg : String)

/-- The message carried by each load error, as printed by `main`. -/
def describeError : LoadError → String
  | LoadError.notFound p => "OBJ file not found: " ++ p
  | LoadError.parseError m => m

/--
The guarded load in `main`:
```
try:
    vertices, faces = load_obj(obj_path)
except Exception as e:
    print("Error loading OBJ: " + str(e))
    return
```
followed by the ModernGL setup only on success.
-/
def mainStartup (pathExists : String → Bool)
    (parse : String → Except String Mesh) (obj_path : String) :
    StartupOutcome :=
  match load_obj pathExists parse obj_path with
  | Except.ok m => StartupOutcome.proceed m
  | Except.error e =>
      StartupOutcome.exitGracefully ("Error loading OBJ: " ++ describeError e)

theorem load_obj_not_exists (pathExists : String → Bool)
    (parse : String → Except String Mesh) (obj_path : String)
    (h : pathExists obj_path = false) :
    load_obj pathExists parse obj_path =
      Except.error (LoadError.notFound obj_path) := by
  unfold load_obj
  rw [h]
  simp

/-- C8: mesh loading fails with a not-found error exactly when the path
does not exist (and surfaces the parser's error on malformed content), and
whenever loading fails `main` reports the error and returns gracefully,
never reaching GPU setup or rendering. -/
theorem C8_load_error_handling (pathExists : String → Bool)
    (parse : String → Except String Mesh) (obj_path : String) :
    ((∃ p, load_obj pathExists parse obj_path =
        Except.error (LoadError.notFound p)) ↔ pathExists obj_path = false) ∧
    (∀ msg, pathExists obj_path = true → parse obj_path = Except.error msg →
      load_obj pathExists parse obj_path =
        Except.error (LoadError.parseError msg)) ∧
    (∀ e, load_obj pathExists parse obj_path = Except.error e →
      mainStartup pathExists parse obj_path =
        StartupOutcome.exitGracefully
          ("Error loading OBJ: " ++ describeError e)) ∧
    (∀ e, load_obj pathExists parse obj_path = Except.error e →
      ∀ m, mainStartup pathExists parse obj_path ≠
        StartupOutcome.proceed m) := by
  refine ⟨⟨?_, ?_⟩, ?_, ?_, ?_⟩
  · rintro ⟨p, hp⟩
    by_contra h
    rw [Bool.not_eq_false] at h
    unfold load_obj at hp
    rw [h] at hp
    simp only [if_true] at hp
    cases hparse : parse obj_path with
    | ok m => rw [hparse] at hp; exact Except.noConfusion hp
    | error e =>
        rw [hparse] at hp
        have := Except.error.inj hp
        exact LoadError.noConfusion this
  · intro h
    exact ⟨obj_path, load_obj_not_exists pathExists parse obj_path h⟩
  · intro msg hex hparse
    unfold load_obj
    rw [hex, hparse]
    simp
  · intro e he
    unfold mainStartup
    rw [he]
  · intro e he m
    unfold mainStartup
    rw [he]
    exact fun h => StartupOutcome.noConfusion h

/-- Witness for C8: a missing path yields a graceful exit carrying the
not-found message, with no GPU setup. -/
theorem C8_witness :
    mainStartup (fun _ => false) (fun _ => Except.error ("bad float"))
      "scene.obj" =
      StartupOutcome.exitGracefully
        ("Error loading OBJ: " ++
          describeError (LoadError.notFound ("scene.obj"))) :=
  (C8_load_error_handling (fun _ => false) (fun _ => Except.error ("bad float"))
    "scene.obj").2.2.1 (LoadError.notFound ("scene.obj")) (by rfl)

/-- A key event consumed by the selection loop of `obj_menu`: `K_UP`,
`K_DOWN`, or any other key (ignored for the selection index). `K_RETURN`
ends the loop, so a run of the menu is the list of events before it. -/
inductive MenuEvent where
  | up
  | down
  | other

/-- One `KEYDOWN` dispatch of `obj_menu` on the selection index, `n` being
the number of listed files (Python `%` on a positive modulus agrees with
`Int.emod`):
```
if event.key == pygame.K_UP: selected_index = (selected_index - 1) % n
elif event.key == pygame.K_DOWN: selected_index = (selected_index + 1) % n
```
-/
def menuStep (n : ℤ) (i : ℤ) : MenuEvent → ℤ
  | MenuEvent.up => (i - 1) % n
  | MenuEvent.down => (i + 1) % n
  | MenuEvent.other => i

/-- The selection index of `obj_menu` after a sequence of key events,
starting from `selected_index = 0`. -/
def menuIndex (n : ℤ) (events : List MenuEvent) : ℤ :=
  events.foldl (menuStep n) 0

/-- Menu `obj_menu(screen, clock, obj_folder)`, parameterised by the already
filtered directory listing `obj_files` (the names ending in `.obj`): raises
`FileNotFoundError` when the folder holds no `.obj` files, and otherwise
returns `os.path.join(obj_folder, obj_files[selected_index])` once the
selection is confirmed. -/
def obj_menu (obj_folder : String) (obj_files : List String)
    (events : List MenuEvent) : Except String String :=
  if obj_files.isEmpty then
    Except.error ("No OBJ files found in " ++ obj_folder)
  else
    Except.ok (obj_folder ++ "/" ++
      obj_files.getD (menuIndex (obj_files.length : ℤ) events).toNat (""))

theorem menuStep_mem (n i : ℤ) (hn : 0 < n) (hi : 0 ≤ i ∧ i < n)
    (e : MenuEvent) : 0 ≤ menuStep n i e ∧ menuStep n i e < n := by
  cases e with
  | up => exact ⟨Int.emod_nonneg _ (ne_of_gt hn), Int.emod_lt_of_pos _ hn⟩
  | down => exact ⟨Int.emod_nonneg _ (ne_of_gt hn), Int.emod_lt_of_pos _ hn⟩
  | other => exact hi

theorem menuFold_mem (n : ℤ) (hn : 0 < n) (events : List MenuEvent) (i : ℤ)
    (hi : 0 ≤ i ∧ i < n) :
    0 ≤ events.foldl (menuStep n) i ∧ events.foldl (menuStep n) i < n := by
  induction events generalizing i with
  | nil => exact hi
  | cons e es ih => exact ih (menuStep n i e) (menuStep_mem n i hn hi e)

theorem menuIndex_mem (n : ℤ) (hn : 0 < n) (events : List MenuEvent) :
    0 ≤ menuIndex n events ∧ menuIndex n events < n :=
  menuFold_mem n hn events 0 ⟨le_refl 0, hn⟩

/-- C10: with at least one listed `.obj` file the selection index stays
in `[0, count - 1]` after every key event (navigation wraps modulo the list
length), and a confirmed selection returns the folder joined with one of the
listed file names; with no `.obj` files the menu fails with a not-found
error. -/
theorem C10_menu_spec (obj_folder : String) (obj_files : List String)
    (events : List MenuEvent) :
    (obj_files ≠ [] →
      (0 ≤ menuIndex (obj_files.length : ℤ) events ∧
        menuIndex (obj_files.length : ℤ) events < (obj_files.length : ℤ)) ∧
      ∃ name ∈ obj_files,
        obj_menu obj_folder obj_files events =
          Except.ok (obj_folder ++ "/" ++ name)) ∧
    (obj_files = [] →
      obj_menu obj_folder obj_files events =
        Except.error ("No OBJ files found in " ++ obj_folder)) := by
  constructor
  · intro hne
    have hn : 0 < (obj_files.length : ℤ) := by
      have := List.length_pos.mpr hne
      exact_mod_cast this
    have hmem := menuIndex_mem (obj_files.length : ℤ) hn events
    refine ⟨hmem, ?_⟩
    have hlt : (menuIndex (obj_files.length : ℤ) events).toNat <
        obj_files.length := by
      have h1 : ((menuIndex (obj_files.length : ℤ) events).toNat : ℤ) =
          menuIndex (obj_files.length : ℤ) events :=
        Int.toNat_of_nonneg hmem.1
      have h2 : ((menuIndex (obj_files.length : ℤ) events).toNat : ℤ) <
          (obj_files.length : ℤ) := by rw [h1]; exact hmem.2
      exact_mod_cast h2
    refine ⟨obj_files.getD (menuIndex (obj_files.length : ℤ) events).toNat (""),
      ?_, ?_⟩
    · rw [List.getD_eq_getElem obj_files ("") hlt]
      exact List.getElem_mem hlt
    · unfold obj_menu
      rw [if_neg (by simpa using hne)]
  · intro hempty
    unfold obj_menu
    rw [if_pos (by simpa using hempty)]

/-- Witness for C10: two listed files, events down-down-up select index 1,
and the menu returns the folder joined with the second file; the empty
listing fails with the not-found error. -/
theorem C10_witness :
    ((0 ≤ menuIndex 2 [MenuEvent.down, MenuEvent.down, MenuEvent.up] ∧
        menuIndex 2 [MenuEvent.down, MenuEvent.down, MenuEvent.up] < 2) ∧
      ∃ name ∈ ["room.obj", "cube.obj"],
        obj_menu ("OBJ_files") ["room.obj", "cube.obj"]
            [MenuEvent.down, MenuEvent.down, MenuEvent.up] =
          Except.ok ("OBJ_files" ++ "/" ++ name)) ∧
    obj_menu ("OBJ_files") ([] : List String) [] =
      Except.error ("No OBJ files found in " ++ "OBJ_files") :=
  ⟨(C10_menu_spec ("OBJ_files") ["room.obj", "cube.obj"]
      [MenuEvent.down, MenuEvent.down, MenuEvent.up]).1 (by simp),
   (C10_menu_spec ("OBJ_files") ([] : List String) []).2 rfl⟩

end Raytracer
